import Mathlib

/-!
Verification of the metadata-to-buffer-view translation layer of `pygdf/gpuarrow.py`.

The development is a shallow embedding of the source file.  Device arrays are modelled
as one-dimensional views carrying a dtype, a stride (in bytes) and the list of logical
bytes they expose; machine pointers and the CUDA runtime play no role in any of the
claims, which are all about offsets, lengths, truncation, error conditions and ordering.
All slicing in the source happens on 1-D `uint8` device arrays, where one element is one
byte, so element counts and byte counts coincide for raw buffers.
-/

deriving instance DecidableEq for Except

namespace PyGDF

/-- A numpy dtype, reduced to what the reader uses: its name and its item size in
bytes (`np.dtype(...).itemsize`). -/
structure Dtype where
  name : String
  itemsize : Nat
  deriving DecidableEq

/-- The raw byte dtype of the shared device region (`numpy.uint8`, itemsize 1). -/
def uint8 : Dtype := ⟨"uint8", 1⟩

/-- Python exceptions raised along the embedded code paths.  In the source
`MetadataParsingError` subclasses `ValueError`; the two are kept as distinct
constructors because the claims distinguish them.  `KeyError`,
`NotImplementedError` and `AttributeError` sit in different branches of Python's
exception hierarchy from `ValueError` altogether. -/
inductive Err where
  | valueError : String → Err
  | keyError : String → Err
  | notImplementedError : String → Err
  | attributeError : String → Err
  | metadataParsingError : String → Err
  | indexError : Err
  deriving DecidableEq

/-- Whether an error is the `MetadataParsingError` class (used to state that other
failures are not of that class). -/
def isMetadataParsingError : Err → Bool
  | .metadataParsingError _ => true
  | _ => false

/-- Whether an error is the `NotImplementedError` raised for an unsupported type —
the spec's `UnsupportedType` condition. -/
def isNotImplementedError : Err → Bool
  | .notImplementedError _ => true
  | _ => false

/-- Whether an `Except` computation succeeded (decidable success test used in
hypotheses of theorems that are instantiated by `decide`). -/
def isOk {α : Type} : Except Err α → Bool
  | .ok _ => true
  | .error _ => false

/-- A 1-D device array view: its dtype, its stride in bytes, and the logical bytes it
exposes.  `numba.cuda.cudadrv.devicearray.DeviceNDArray` in the source; for the 1-D
contiguous arrays this program manipulates, `shape` is `(size,)` and `size` is the byte
count divided by the item size. -/
structure DevArray where
  dtype : Dtype
  strides : Nat
  bytes : List Nat
  deriving DecidableEq

/-- `arr.size`: the number of elements of the view. -/
def DevArray.size (a : DevArray) : Nat := a.bytes.length / a.dtype.itemsize

/-- `arr.shape` for the 1-D arrays of this program: the element count. -/
def DevArray.shape (a : DevArray) : Nat := a.size

/-- Python slicing `arr[start:stop]` on a 1-D `uint8` device array (one element = one
byte): clamps at the ends, never fails. -/
def DevArray.slice (a : DevArray) (start stop : Nat) : DevArray :=
  ⟨a.dtype, a.strides, (a.bytes.take stop).drop start⟩

/-- Python slicing `arr[start:]`. -/
def DevArray.sliceFrom (a : DevArray) (start : Nat) : DevArray :=
  ⟨a.dtype, a.strides, a.bytes.drop start⟩

/-- `gpu_view_as(arr, dtype)` with the default `shape=None, strides=None` arguments,
which is how the source always calls it: keep the strides and shape when the dtype is
unchanged, otherwise use packed element-sized strides and recompute the element count as
`arr.size // dtype.itemsize`.  The result is a `DeviceNDArray` over the same
`gpu_data`, so it exposes the first `shape * itemsize` bytes of `arr`. -/
def gpu_view_as (arr : DevArray) (dtype : Dtype) : DevArray :=
  let strides := if arr.dtype = dtype then arr.strides else dtype.itemsize
  let shape := if arr.dtype = dtype then arr.shape else arr.size / dtype.itemsize
  ⟨dtype, strides, arr.bytes.take (shape * dtype.itemsize)⟩

/-- Numpy scalar type attributes reachable from `_schema_to_dtype` via
`getattr(np, 'float{:d}'...)`: numpy defines `float16`, `float32` and `float64`
(`float128` exists only on some platforms and is omitted from the model). -/
def npFloatWidths : List Nat := [16, 32, 64]

/-- Numpy scalar type attributes reachable via `getattr(np, 'int{:d}'...)`:
`int8`, `int16`, `int32`, `int64`. -/
def npIntWidths : List Nat := [8, 16, 32, 64]

/-- `_schema_to_dtype(name, bitwidth)`.  For the kind `'FloatingPoint'` (resp. `'Int'`)
the source looks up the numpy attribute `float{bitwidth}` (resp. `int{bitwidth}`);
a width numpy does not define makes `getattr` raise `AttributeError`.  Only an
unrecognized kind reaches the `NotImplementedError` branch. -/
def _schema_to_dtype (name : String) (bitwidth : Nat) : Except Err Dtype :=
  if name = "FloatingPoint" then
    if bitwidth ∈ npFloatWidths then
      .ok ⟨"float" ++ toString bitwidth, bitwidth / 8⟩
    else
      .error (.attributeError ("float" ++ toString bitwidth))
  else if name = "Int" then
    if bitwidth ∈ npIntWidths then
      .ok ⟨"int" ++ toString bitwidth, bitwidth / 8⟩
    else
      .error (.attributeError ("int" ++ toString bitwidth))
  else
    .error (.notImplementedError
      ("unsupported type " ++ name ++ " " ++ toString bitwidth ++ "-bits"))

/-- `_BufferDesc`: a resolved (offset, length) pair, in bytes, within the region. -/
structure BufferDesc where
  offset : Nat
  length : Nat
  deriving DecidableEq

/-- `_NodeDesc`: one column's resolved description. -/
structure NodeDesc where
  name : String
  length : Nat
  null_count : Nat
  null_buffer : BufferDesc
  data_buffer : BufferDesc
  dtype : Dtype
  deriving DecidableEq

/-- `GpuArrowNodeReader`: the data sub-region shared by all columns plus one node's
descriptor. -/
structure GpuArrowNodeReader where
  gpu_data : DevArray
  desc : NodeDesc
  deriving DecidableEq

/-- `node.null_count` property. -/
def GpuArrowNodeReader.null_count (r : GpuArrowNodeReader) : Nat := r.desc.null_count

/-- `node.dtype` property. -/
def GpuArrowNodeReader.dtype (r : GpuArrowNodeReader) : Dtype := r.desc.dtype

/-- `node.name` property. -/
def GpuArrowNodeReader.name (r : GpuArrowNodeReader) : String := r.desc.name

/-- `node.data_raw`: slice the region at `[offset, offset + length)` and raise
`ValueError('data size mismatch')` when the slice does not have exactly `length`
elements. -/
def GpuArrowNodeReader.data_raw (r : GpuArrowNodeReader) : Except Err DevArray :=
  let size := r.desc.data_buffer.length
  let start := r.desc.data_buffer.offset
  let stop := start + size
  let ary := r.gpu_data.slice start stop
  if ary.size ≠ size then .error (.valueError "data size mismatch") else .ok ary

/-- `node.data`: the raw data buffer truncated to `length * dtype.itemsize` bytes and
reinterpreted as the node's dtype. -/
def GpuArrowNodeReader.data (r : GpuArrowNodeReader) : Except Err DevArray := do
  let raw ← r.data_raw
  let stop := r.desc.length * r.dtype.itemsize
  pure (gpu_view_as (raw.slice 0 stop) r.dtype)

/-- `node.null_raw`: same shape as `data_raw`, over the null buffer descriptor. -/
def GpuArrowNodeReader.null_raw (r : GpuArrowNodeReader) : Except Err DevArray :=
  let size := r.desc.null_buffer.length
  let start := r.desc.null_buffer.offset
  let stop := start + size
  let ary := r.gpu_data.slice start stop
  if ary.size ≠ size then .error (.valueError "data size mismatch") else .ok ary

/-- `node.null`: the raw null buffer truncated to `(length // 8) * mask_dtype.itemsize`
bytes and reinterpreted as the mask storage unit.  `mask_dtype` is imported from
`pygdf.utils`, which is not under `src/`; modelled from the spec, which fixes only that
it is "the fixed storage unit used for bitmask words", it is passed as a parameter. -/
def GpuArrowNodeReader.null (r : GpuArrowNodeReader) (mask_dtype : Dtype) :
    Except Err DevArray := do
  let raw ← r.null_raw
  let stop := (r.desc.length / 8) * mask_dtype.itemsize
  pure (gpu_view_as (raw.slice 0 stop) mask_dtype)

/-- One JSON metadata entry as handed back by the external parser: a Python dict whose
required keys may each be absent (`none`).  The `dtype` sub-object carries the
(type-name, bit-width) pair. -/
structure DctNode where
  name : Option String
  length : Option Nat
  null_count : Option Nat
  null_buffer : Option BufferDesc
  data_buffer : Option BufferDesc
  dtype : Option (String × Nat)
  deriving DecidableEq

/-- Python dict subscript `dctnode[key]`: raises `KeyError(key)` when the key is
absent. -/
def dictGet {α : Type} (v : Option α) (key : String) : Except Err α :=
  match v with
  | some x => .ok x
  | none => .error (.keyError key)

/-- The body of the loop in `GpuArrowReader._open`: build one `_NodeDesc` from one
metadata entry, reading the fields in the order the keyword arguments are written. -/
def readNodeDesc (dctnode : DctNode) : Except Err NodeDesc := do
  let name ← dictGet dctnode.name "name"
  let length ← dictGet dctnode.length "length"
  let null_count ← dictGet dctnode.null_count "null_count"
  let null_buffer ← dictGet dctnode.null_buffer "null_buffer"
  let data_buffer ← dictGet dctnode.data_buffer "data_buffer"
  let dt ← dictGet dctnode.dtype "dtype"
  let dtype ← _schema_to_dtype dt.1 dt.2
  pure ⟨name, length, null_count, null_buffer, data_buffer, dtype⟩

/-- Calls into the external parser collaborator that we track: it is opened before the
parse and, on the success path only, closed after it. -/
inductive Event where
  | openParser : Event
  | closeParser : Event
  deriving DecidableEq

/-- The external metadata-parser collaborator, abstracted over: whether
`gdf_ipc_parser_failed` reports failure, the error string, the decoded JSON node list,
and the data-region start offset. -/
structure ParserOutput where
  failed : Bool
  errorMsg : String
  nodes : List DctNode
  dataOffset : Nat
  deriving DecidableEq

/-- `GpuArrowReader._parse_metdata` (sic), returning the parser-resource events that
occurred alongside the result.  The source wraps the parse in a `@contextmanager`
generator whose body is `yield` followed by the close call, with no `try/finally`:
when the `with`-body raises (the `MetadataParsingError` branch), the exception is
thrown into the generator at the `yield` point and propagates, so the close call after
the `yield` never runs.  On success the body completes and the generator resumes,
closing the parser. -/
def _parse_metdata (gpu_data : DevArray) (p : ParserOutput) :
    List Event × Except Err (List DctNode × DevArray) :=
  if p.failed then
    ([Event.openParser], .error (.metadataParsingError p.errorMsg))
  else
    ([Event.openParser, Event.closeParser],
     .ok (p.nodes, gpu_data.sliceFrom p.dataOffset))

/-- The `for` loop of `GpuArrowReader._open`: turn each metadata entry into a
`GpuArrowNodeReader` over the data sub-region, in emission order, stopping at the
first failing entry. -/
def buildNodes (dataptr : DevArray) : List DctNode → Except Err (List GpuArrowNodeReader)
  | [] => .ok []
  | dctnode :: rest => do
      let nodedesc ← readNodeDesc dctnode
      let node : GpuArrowNodeReader := ⟨dataptr, nodedesc⟩
      let others ← buildNodes dataptr rest
      pure (node :: others)

/-- `GpuArrowReader`: after construction, just its ordered node list. -/
structure GpuArrowReader where
  nodes : List GpuArrowNodeReader
  deriving DecidableEq

/-- `GpuArrowReader._open`: parse the metadata, then populate the node list. -/
def GpuArrowReader._open (gpu_data : DevArray) (p : ParserOutput) :
    List Event × Except Err (List GpuArrowNodeReader) :=
  let pm := _parse_metdata gpu_data p
  (pm.1, do
    let res ← pm.2
    buildNodes res.2 res.1)

/-- `GpuArrowReader.__init__`: construction performs exactly one metadata parse and
populates the nodes; the events record what happened to the parser resource. -/
def GpuArrowReader.construct (gpu_data : DevArray) (p : ParserOutput) :
    List Event × Except Err GpuArrowReader :=
  let op := GpuArrowReader._open gpu_data p
  (op.1, Except.map GpuArrowReader.mk op.2)

/-- `GpuArrowReader.__len__`. -/
def GpuArrowReader.length (r : GpuArrowReader) : Nat := r.nodes.length

/-- Python list subscript `lst[idx]` for an integer index: negative indices count from
the end; an index out of `[-len, len)` raises `IndexError`. -/
def pyIndex {α : Type} (l : List α) (idx : Int) : Except Err α :=
  let j : Int := if idx < 0 then idx + l.length else idx
  if h : 0 ≤ j ∧ j < (l.length : Int) then
    .ok (l.get ⟨j.toNat, by omega⟩)
  else
    .error .indexError

/-- `GpuArrowReader.__getitem__(idx)` = `self._nodes[idx]`. -/
def GpuArrowReader.getitem (r : GpuArrowReader) (idx : Int) :
    Except Err GpuArrowNodeReader :=
  pyIndex r.nodes idx

/-- Modelled from the spec: `Series` comes from `pygdf.dataframe`, which is not under
`src/`; the spec says a realized column is built either from (typed data view, null
view, null count) — `Series.from_masked_array` — or from the data view alone —
`Series.from_array`. -/
inductive Series where
  | masked : DevArray → DevArray → Nat → Series
  | plain : DevArray → Series
  deriving DecidableEq

/-- Python `OrderedDict` assignment `dc[k] = v`: an existing key keeps its position and
has its value overwritten, a new key is appended. -/
def odSet (dc : List (String × Series)) (k : String) (v : Series) :
    List (String × Series) :=
  if dc.any (fun p => p.1 = k) then
    dc.map (fun p => if p.1 = k then (k, v) else p)
  else
    dc ++ [(k, v)]

/-- The per-node branch of `GpuArrowReader.to_dict`: a masked series when
`node.null_count` is truthy (nonzero), a plain one otherwise. -/
def nodeSeries (mask_dtype : Dtype) (node : GpuArrowNodeReader) : Except Err Series :=
  if node.null_count ≠ 0 then do
    let d ← node.data
    let m ← node.null mask_dtype
    pure (Series.masked d m node.null_count)
  else do
    let d ← node.data
    pure (Series.plain d)

/-- One iteration of the `to_dict` loop: build the series, store it under the node's
name. -/
def toDictBody (mask_dtype : Dtype) (dc : List (String × Series))
    (node : GpuArrowNodeReader) : Except Err (List (String × Series)) := do
  let sr ← nodeSeries mask_dtype node
  pure (odSet dc node.name sr)

/-- `GpuArrowReader.to_dict`: fold the loop body over the nodes in order, starting from
an empty ordered dict. -/
def GpuArrowReader.to_dict (r : GpuArrowReader) (mask_dtype : Dtype) :
    Except Err (List (String × Series)) :=
  r.nodes.foldlM (toDictBody mask_dtype) []

/-! Concrete inputs used by the witness and counterexample theorems. -/

/-- An 8-byte region used by the C1 witness. -/
def w1node : GpuArrowNodeReader :=
  ⟨⟨uint8, 1, [10, 11, 12, 13, 14, 15, 16, 17]⟩,
   ⟨"a", 1, 0, ⟨6, 5⟩, ⟨2, 4⟩, ⟨"int32", 4⟩⟩⟩

/-- A 4-byte region with both buffer descriptors of length 0 placed past the end of the
region (C1 counterexample). -/
def c1node : GpuArrowNodeReader :=
  ⟨⟨uint8, 1, [0, 0, 0, 0]⟩, ⟨"z", 0, 0, ⟨9, 0⟩, ⟨10, 0⟩, ⟨"int32", 4⟩⟩⟩

/-- A 10-byte region whose data buffer holds 9 bytes, one more than the 8 logical bytes
of 2 int32 elements (C2 witness). -/
def w2node : GpuArrowNodeReader :=
  ⟨⟨uint8, 1, [1, 2, 3, 4, 5, 6, 7, 8, 9, 10]⟩,
   ⟨"x", 2, 0, ⟨0, 0⟩, ⟨1, 9⟩, ⟨"int32", 4⟩⟩⟩

/-- The raw data buffer of `w2node`: bytes 1 through 9 of its region. -/
def w2raw : DevArray := ⟨uint8, 1, [2, 3, 4, 5, 6, 7, 8, 9, 10]⟩

/-- A 4-byte mask storage unit, one possible instantiation of the fixed bitmask word
dtype. -/
def w3mask : Dtype := ⟨"uint32", 4⟩

/-- A 12-byte region whose null buffer holds 9 bytes, enough for the
`(17 / 8) * 4 = 8` mask bytes (C3 witness). -/
def w3node : GpuArrowNodeReader :=
  ⟨⟨uint8, 1, [1, 2, 3, 4, 5, 6, 7, 8, 9, 10, 11, 12]⟩,
   ⟨"m", 17, 3, ⟨2, 9⟩, ⟨0, 0⟩, ⟨"int8", 1⟩⟩⟩

/-- The raw null buffer of `w3node`: bytes 2 through 10 of its region. -/
def w3raw : DevArray := ⟨uint8, 1, [3, 4, 5, 6, 7, 8, 9, 10, 11]⟩

/-- A node with 8 logical elements but an empty null buffer: its raw null slice
succeeds, yet the mask view cannot have `(8 / 8) * itemsize` bytes
(C3 counterexample). -/
def c3node : GpuArrowNodeReader :=
  ⟨⟨uint8, 1, []⟩, ⟨"n", 8, 1, ⟨0, 0⟩, ⟨0, 0⟩, ⟨"int8", 1⟩⟩⟩

/-- An 8-byte region whose data buffer holds only 6 bytes for 2 int32 elements
(C10 witness). -/
def w10node : GpuArrowNodeReader :=
  ⟨⟨uint8, 1, [1, 2, 3, 4, 5, 6, 7, 8]⟩,
   ⟨"t", 2, 0, ⟨0, 0⟩, ⟨0, 6⟩, ⟨"int32", 4⟩⟩⟩

/-- The raw data buffer of `w10node`: its first 6 bytes. -/
def w10raw : DevArray := ⟨uint8, 1, [1, 2, 3, 4, 5, 6]⟩

/-- A region for the resource-scoping scenarios (C5). -/
def w5region : DevArray := ⟨uint8, 1, [0, 0, 0, 0]⟩

/-- A parser run that reports failure with the message "bad magic" (C5). -/
def w5fail : ParserOutput := ⟨true, "bad magic", [], 0⟩

/-- A parser run that succeeds with no columns (C5). -/
def w5ok : ParserOutput := ⟨false, "", [], 0⟩

/-- A metadata entry whose required `name` key is missing (C7). -/
def w7bad : DctNode := ⟨none, some 4, some 0, some ⟨0, 0⟩, some ⟨0, 16⟩, some ("Int", 32)⟩

/-- A 16-byte region for the C7 scenario. -/
def w7region : DevArray := ⟨uint8, 1, List.replicate 16 0⟩

/-- A successful parse whose single entry is the malformed `w7bad` (C7). -/
def w7parser : ParserOutput := ⟨false, "", [w7bad], 0⟩

/-- A 4-byte mask storage unit for the `to_dict` scenarios (C4). -/
def w4mask : Dtype := ⟨"uint32", 4⟩

/-- A node with `null_count = 0` over an 8-byte region (C4). -/
def w4a : GpuArrowNodeReader :=
  ⟨⟨uint8, 1, [1, 2, 3, 4, 5, 6, 7, 8]⟩, ⟨"a", 2, 0, ⟨0, 0⟩, ⟨0, 2⟩, ⟨"int8", 1⟩⟩⟩

/-- A node with `null_count = 1` over the same region (C4). -/
def w4b : GpuArrowNodeReader :=
  ⟨⟨uint8, 1, [1, 2, 3, 4, 5, 6, 7, 8]⟩, ⟨"b", 2, 1, ⟨4, 0⟩, ⟨2, 2⟩, ⟨"int8", 1⟩⟩⟩

/-- A reader holding `w4a` then `w4b` (C4). -/
def w4reader : GpuArrowReader := ⟨[w4a, w4b]⟩

/-- An 8-byte region for the ordering scenario (C8). -/
def w8region : DevArray := ⟨uint8, 1, [0, 0, 0, 0, 0, 0, 0, 0]⟩

/-- First metadata entry, named "b" — lexically after "a" (C8). -/
def w8n1 : DctNode := ⟨some "b", some 1, some 0, some ⟨0, 0⟩, some ⟨0, 4⟩, some ("Int", 32)⟩

/-- Second metadata entry, named "a" (C8). -/
def w8n2 : DctNode := ⟨some "a", some 1, some 0, some ⟨0, 0⟩, some ⟨4, 4⟩, some ("Int", 32)⟩

/-- A successful parse emitting "b" before "a" (C8). -/
def w8parser : ParserOutput := ⟨false, "", [w8n1, w8n2], 0⟩

/-- The reader that construction from `w8parser` produces (C8). -/
def w8r : GpuArrowReader :=
  ⟨[⟨w8region, ⟨"b", 1, 0, ⟨0, 0⟩, ⟨0, 4⟩, ⟨"int32", 4⟩⟩⟩,
    ⟨w8region, ⟨"a", 1, 0, ⟨0, 0⟩, ⟨4, 4⟩, ⟨"int32", 4⟩⟩⟩]⟩

/-- A 16-byte region for the indexing scenario (C9). -/
def w9region : DevArray := ⟨uint8, 1, List.replicate 16 0⟩

/-- A single well-formed metadata entry (C9). -/
def w9dct : DctNode := ⟨some "x", some 4, some 0, some ⟨0, 0⟩, some ⟨0, 16⟩, some ("Int", 32)⟩

/-- A successful parse with the single entry `w9dct` (C9). -/
def w9parser : ParserOutput := ⟨false, "", [w9dct], 0⟩

/-- The single node that construction from `w9parser` produces (C9). -/
def w9node : GpuArrowNodeReader :=
  ⟨w9region, ⟨"x", 4, 0, ⟨0, 0⟩, ⟨0, 16⟩, ⟨"int32", 4⟩⟩⟩

/-- The reader that construction from `w9parser` produces (C9). -/
def w9r : GpuArrowReader := ⟨[w9node]⟩

/-! Helper lemmas about the embedding. -/

lemma isOk_iff {α : Type} (e : Except Err α) : isOk e = true ↔ ∃ a, e = .ok a := by
  cases e <;> simp [isOk]

lemma bind_ok_iff {α β : Type} (x : Except Err α) (f : α → Except Err β) (b : β) :
    (x >>= f) = .ok b ↔ ∃ a, x = .ok a ∧ f a = .ok b := by
  cases x <;> simp [Bind.bind, Except.bind]

lemma map_ok_iff {α β : Type} (f : α → β) (x : Except Err α) (b : β) :
    Except.map f x = .ok b ↔ ∃ a, x = .ok a ∧ f a = b := by
  cases x <;> simp [Except.map]

lemma dictGet_ok_iff {α : Type} (v : Option α) (k : String) (a : α) :
    dictGet v k = .ok a ↔ v = some a := by
  cases v <;> simp [dictGet]

lemma slice_bytes (g : DevArray) (off len : Nat) :
    (g.slice off (off + len)).bytes = (g.bytes.drop off).take len := by
  simp [DevArray.slice, List.drop_take]

lemma slice_dtype (g : DevArray) (start stop : Nat) :
    (g.slice start stop).dtype = g.dtype := rfl

lemma slice_strides (g : DevArray) (start stop : Nat) :
    (g.slice start stop).strides = g.strides := rfl

lemma size_of_uint8 (a : DevArray) (ha : a.dtype = uint8) : a.size = a.bytes.length := by
  simp [DevArray.size, ha, uint8]

lemma slice_size_eq (g : DevArray) (hg : g.dtype = uint8) (off len : Nat) :
    (g.slice off (off + len)).size = min (off + len) g.bytes.length - off := by
  simp [DevArray.slice, DevArray.size, hg, uint8]

/-- A `uint8` view's shape is its byte count. -/
lemma shape_of_uint8 (a : DevArray) (ha : a.dtype = uint8) :
    a.shape = a.bytes.length := by
  simp [DevArray.shape, DevArray.size, ha, uint8]

/-- Inversion of `data_raw` success: the result is the slice at the data buffer's
window and has exactly the descriptor's length. -/
lemma data_raw_ok_inv (r : GpuArrowNodeReader) (a : DevArray)
    (h : r.data_raw = .ok a) :
    a = r.gpu_data.slice r.desc.data_buffer.offset
      (r.desc.data_buffer.offset + r.desc.data_buffer.length) ∧
    a.size = r.desc.data_buffer.length := by
  simp only [GpuArrowNodeReader.data_raw] at h
  split at h
  · cases h
  · next hc => cases h; exact ⟨rfl, not_ne_iff.mp hc⟩

/-- Inversion of `null_raw` success. -/
lemma null_raw_ok_inv (r : GpuArrowNodeReader) (a : DevArray)
    (h : r.null_raw = .ok a) :
    a = r.gpu_data.slice r.desc.null_buffer.offset
      (r.desc.null_buffer.offset + r.desc.null_buffer.length) ∧
    a.size = r.desc.null_buffer.length := by
  simp only [GpuArrowNodeReader.null_raw] at h
  split at h
  · cases h
  · next hc => cases h; exact ⟨rfl, not_ne_iff.mp hc⟩

/-- The shape produced by `gpu_view_as` after truncating a `uint8` array at `stop`:
the retained byte count, divided (flooring) by the target item size. -/
lemma gpu_view_as_shape (a : DevArray) (ha : a.dtype = uint8) (dt : Dtype)
    (hit : 0 < dt.itemsize) (stop : Nat) :
    (gpu_view_as (a.slice 0 stop) dt).shape = min stop a.bytes.length / dt.itemsize := by
  have hdty : (a.slice 0 stop).dtype = uint8 := by rw [slice_dtype, ha]
  have hM : (a.slice 0 stop).bytes.length = min stop a.bytes.length := by
    simp [DevArray.slice]
  have hres : (gpu_view_as (a.slice 0 stop) dt).bytes =
      (a.slice 0 stop).bytes.take
        ((if (a.slice 0 stop).dtype = dt then (a.slice 0 stop).shape
          else (a.slice 0 stop).size / dt.itemsize) * dt.itemsize) := rfl
  have hshape : (gpu_view_as (a.slice 0 stop) dt).shape =
      (gpu_view_as (a.slice 0 stop) dt).bytes.length / dt.itemsize := rfl
  rw [hshape, hres, List.length_take, hM]
  by_cases hdt : (a.slice 0 stop).dtype = dt
  · rw [if_pos hdt, shape_of_uint8 _ hdty, hM,
      min_eq_right (Nat.le_mul_of_pos_right _ hit)]
  · rw [if_neg hdt, size_of_uint8 _ hdty, hM]
    have hle : min stop a.bytes.length / dt.itemsize * dt.itemsize
        ≤ min stop a.bytes.length := Nat.div_mul_le_self ..
    rw [min_eq_left hle, Nat.mul_div_cancel _ hit]

/-- The bytes produced by `gpu_view_as` after truncating a `uint8` array at an
item-aligned `stop` that lies within the array: exactly the first `stop` bytes. -/
lemma gpu_view_as_bytes_aligned (a : DevArray) (ha : a.dtype = uint8) (dt : Dtype)
    (hit : 0 < dt.itemsize) (k : Nat) (hk : k * dt.itemsize ≤ a.bytes.length) :
    (gpu_view_as (a.slice 0 (k * dt.itemsize)) dt).bytes =
      a.bytes.take (k * dt.itemsize) := by
  have hdty : (a.slice 0 (k * dt.itemsize)).dtype = uint8 := by rw [slice_dtype, ha]
  have hsl : (a.slice 0 (k * dt.itemsize)).bytes = a.bytes.take (k * dt.itemsize) := by
    simp [DevArray.slice]
  have hM : (a.slice 0 (k * dt.itemsize)).bytes.length = k * dt.itemsize := by
    rw [hsl, List.length_take]; omega
  have hres : (gpu_view_as (a.slice 0 (k * dt.itemsize)) dt).bytes =
      (a.slice 0 (k * dt.itemsize)).bytes.take
        ((if (a.slice 0 (k * dt.itemsize)).dtype = dt
          then (a.slice 0 (k * dt.itemsize)).shape
          else (a.slice 0 (k * dt.itemsize)).size / dt.itemsize) * dt.itemsize) := rfl
  rw [hres]
  by_cases hdt : (a.slice 0 (k * dt.itemsize)).dtype = dt
  · rw [if_pos hdt, shape_of_uint8 _ hdty, hM, hsl, List.take_take,
      min_eq_right (Nat.le_mul_of_pos_right _ hit)]
  · rw [if_neg hdt, size_of_uint8 _ hdty, hM, Nat.mul_div_cancel _ hit, hsl,
      List.take_take, min_self]

/-- The dtype produced by `gpu_view_as` is the requested one. -/
lemma gpu_view_as_dtype (arr : DevArray) (dt : Dtype) :
    (gpu_view_as arr dt).dtype = dt := rfl

/-- The strides produced by `gpu_view_as`: kept when the dtype is unchanged, packed
otherwise. -/
lemma gpu_view_as_strides (arr : DevArray) (dt : Dtype) :
    (gpu_view_as arr dt).strides = if arr.dtype = dt then arr.strides else dt.itemsize :=
  rfl

lemma pure_ok_iff {α : Type} (a b : α) : (pure a : Except Err α) = .ok b ↔ a = b := by
  simp [pure, Except.pure]

/-- Every entry of a successfully built node list came from a successful
`readNodeDesc`. -/
lemma buildNodes_ok_mem (ptr : DevArray) (l : List DctNode)
    (ns : List GpuArrowNodeReader) (h : buildNodes ptr l = .ok ns) :
    ∀ d ∈ l, ∃ desc, readNodeDesc d = .ok desc := by
  induction l generalizing ns with
  | nil => intro d hd; cases hd
  | cons x xs ih =>
    intro d hd
    simp only [buildNodes, bind_ok_iff, pure_ok_iff] at h
    obtain ⟨desc, hdesc, others, hothers, -⟩ := h
    rcases List.mem_cons.mp hd with rfl | hd2
    · exact ⟨desc, hdesc⟩
    · exact ih others hothers d hd2

/-- A successfully built node list has one node per metadata entry. -/
lemma buildNodes_ok_length (ptr : DevArray) (l : List DctNode)
    (ns : List GpuArrowNodeReader) (h : buildNodes ptr l = .ok ns) :
    ns.length = l.length := by
  induction l generalizing ns with
  | nil =>
    simp only [buildNodes] at h
    cases h
    rfl
  | cons x xs ih =>
    simp only [buildNodes, bind_ok_iff, pure_ok_iff] at h
    obtain ⟨desc, hdesc, others, hothers, heq⟩ := h
    rw [← heq]
    simp [ih others hothers]

/-- Positionally, the `i`-th node of a successfully built node list is the node reader
over the `i`-th metadata entry's descriptor. -/
lemma buildNodes_ok_get (ptr : DevArray) (l : List DctNode)
    (ns : List GpuArrowNodeReader) (h : buildNodes ptr l = .ok ns) (i : Nat)
    (hi : i < l.length) (hi2 : i < ns.length) :
    ∃ desc, readNodeDesc (l.get ⟨i, hi⟩) = .ok desc ∧
      ns.get ⟨i, hi2⟩ = ⟨ptr, desc⟩ := by
  induction l generalizing ns i with
  | nil => cases hi
  | cons x xs ih =>
    simp only [buildNodes, bind_ok_iff, pure_ok_iff] at h
    obtain ⟨desc, hdesc, others, hothers, heq⟩ := h
    subst heq
    cases i with
    | zero => exact ⟨desc, hdesc, rfl⟩
    | succ j =>
      exact ih others hothers j (Nat.lt_of_succ_lt_succ hi)
        (Nat.lt_of_succ_lt_succ hi2)

/-- A successful `readNodeDesc` read the entry's `name` field. -/
lemma readNodeDesc_ok_name (dct : DctNode) (desc : NodeDesc)
    (h : readNodeDesc dct = .ok desc) : dct.name = some desc.name := by
  simp only [readNodeDesc, bind_ok_iff, dictGet_ok_iff, pure_ok_iff] at h
  obtain ⟨nm, hnm, ln, hln, nc, hnc, nb, hnb, db, hdb, dt, hdt, dty, hdty, heq⟩ := h
  rw [hnm, ← heq]

/-- A metadata entry with any required field missing makes `readNodeDesc` raise a
`KeyError` (for the first missing field in evaluation order). -/
lemma readNodeDesc_missing (dct : DctNode)
    (hmiss : dct.name = none ∨ dct.length = none ∨ dct.null_count = none ∨
      dct.null_buffer = none ∨ dct.data_buffer = none ∨ dct.dtype = none) :
    ∃ k, readNodeDesc dct = .error (Err.keyError k) := by
  cases hn : dct.name with
  | none =>
    exact ⟨"name", by simp [readNodeDesc, dictGet, hn, Bind.bind, Except.bind]⟩
  | some a =>
  cases hl : dct.length with
  | none =>
    exact ⟨"length", by simp [readNodeDesc, dictGet, hn, hl, Bind.bind, Except.bind]⟩
  | some b =>
  cases hc : dct.null_count with
  | none =>
    exact ⟨"null_count",
      by simp [readNodeDesc, dictGet, hn, hl, hc, Bind.bind, Except.bind]⟩
  | some c =>
  cases hb : dct.null_buffer with
  | none =>
    exact ⟨"null_buffer",
      by simp [readNodeDesc, dictGet, hn, hl, hc, hb, Bind.bind, Except.bind]⟩
  | some d =>
  cases hd : dct.data_buffer with
  | none =>
    exact ⟨"data_buffer",
      by simp [readNodeDesc, dictGet, hn, hl, hc, hb, hd, Bind.bind, Except.bind]⟩
  | some e =>
  cases ht : dct.dtype with
  | none =>
    exact ⟨"dtype",
      by simp [readNodeDesc, dictGet, hn, hl, hc, hb, hd, ht, Bind.bind, Except.bind]⟩
  | some f => simp_all

/-- A node whose accessors succeed yields the series the `to_dict` branch builds:
masked when the null count is nonzero, plain otherwise. -/
lemma nodeSeries_ok (u : Dtype) (n : GpuArrowNodeReader)
    (hd : isOk n.data = true) (hm : n.null_count ≠ 0 → isOk (n.null u) = true) :
    ∃ s, nodeSeries u n = .ok s ∧
      (0 < n.null_count → ∃ d m, n.data = .ok d ∧ n.null u = .ok m ∧
        s = Series.masked d m n.null_count) ∧
      (n.null_count = 0 → ∃ d, n.data = .ok d ∧ s = Series.plain d) := by
  obtain ⟨d, hdok⟩ := (isOk_iff _).mp hd
  by_cases hz : n.null_count = 0
  · refine ⟨Series.plain d, ?_, fun hpos => absurd hz (by omega), fun _ => ⟨d, hdok, rfl⟩⟩
    simp [nodeSeries, hz, hdok, Bind.bind, Except.bind, pure, Except.pure]
  · obtain ⟨m, hmok⟩ := (isOk_iff _).mp (hm hz)
    refine ⟨Series.masked d m n.null_count, ?_,
      fun _ => ⟨d, m, hdok, hmok, rfl⟩, fun h0 => absurd h0 hz⟩
    simp [nodeSeries, hz, hdok, hmok, Bind.bind, Except.bind, pure, Except.pure]

/-- Storing a fresh key in an ordered dict appends it. -/
lemma odSet_fresh (dc : List (String × Series)) (k : String) (v : Series)
    (h : ∀ p ∈ dc, p.1 ≠ k) : odSet dc k v = dc ++ [(k, v)] := by
  have hc : ¬ (dc.any (fun p => p.1 = k) = true) := by
    simp only [List.any_eq_true, decide_eq_true_eq]
    rintro ⟨p, hp, he⟩
    exact h p hp he
  unfold odSet
  rw [if_neg hc]

/-- The `to_dict` fold over nodes whose accessors succeed and whose names are distinct
and fresh for the accumulator: it succeeds, appends one entry per node in order, and
each node's entry holds the series of the node's `null_count` branch. -/
lemma toDictAux (u : Dtype) (nodes : List GpuArrowNodeReader)
    (dc0 : List (String × Series))
    (hd : ∀ n ∈ nodes, isOk n.data = true)
    (hm : ∀ n ∈ nodes, n.null_count ≠ 0 → isOk (n.null u) = true)
    (hnd : (nodes.map GpuArrowNodeReader.name).Nodup)
    (hfresh : ∀ n ∈ nodes, ∀ p ∈ dc0, p.1 ≠ n.name) :
    ∃ tail, nodes.foldlM (toDictBody u) dc0 = .ok (dc0 ++ tail) ∧
      tail.map Prod.fst = nodes.map GpuArrowNodeReader.name ∧
      ∀ n ∈ nodes, ∃ s, (n.name, s) ∈ tail ∧
        (0 < n.null_count → ∃ d m, n.data = .ok d ∧ n.null u = .ok m ∧
          s = Series.masked d m n.null_count) ∧
        (n.null_count = 0 → ∃ d, n.data = .ok d ∧ s = Series.plain d) := by
  induction nodes generalizing dc0 with
  | nil => exact ⟨[], by simp [pure, Except.pure], by simp, by simp⟩
  | cons n ns ih =>
    obtain ⟨s, hs, hsP⟩ := nodeSeries_ok u n (hd n (List.mem_cons_self _ _))
      (hm n (List.mem_cons_self _ _))
    have hfr : ∀ p ∈ dc0, p.1 ≠ n.name := hfresh n (List.mem_cons_self _ _)
    have hstep : toDictBody u dc0 n = .ok (dc0 ++ [(n.name, s)]) := by
      simp [toDictBody, hs, Bind.bind, Except.bind, pure, Except.pure,
        odSet_fresh dc0 n.name s hfr]
    have hcons : (∀ x ∈ ns, ¬ x.name = n.name) ∧
        (ns.map GpuArrowNodeReader.name).Nodup := by simpa using hnd
    obtain ⟨hnotin, hnd'⟩ := hcons
    have hfresh' : ∀ x ∈ ns, ∀ p ∈ dc0 ++ [(n.name, s)], p.1 ≠ x.name := by
      intro x hx p hp
      rcases List.mem_append.mp hp with hp0 | hp1
      · exact hfresh x (List.mem_cons_of_mem _ hx) p hp0
      · have hpe : p = (n.name, s) := by simpa using hp1
        rw [hpe]
        exact fun heq => hnotin x hx heq.symm
    obtain ⟨tail, htail, hkeys, hprop⟩ := ih (dc0 ++ [(n.name, s)])
      (fun x hx => hd x (List.mem_cons_of_mem _ hx))
      (fun x hx => hm x (List.mem_cons_of_mem _ hx)) hnd' hfresh'
    refine ⟨(n.name, s) :: tail, ?_, ?_, ?_⟩
    · rw [List.foldlM_cons, hstep]
      simpa [Bind.bind, Except.bind, List.append_assoc] using htail
    · simp [hkeys]
    · intro x hx
      rcases List.mem_cons.mp hx with rfl | hx2
      · exact ⟨s, List.mem_cons_self _ _, hsP⟩
      · obtain ⟨s2, hmem, hP⟩ := hprop x hx2
        exact ⟨s2, List.mem_cons_of_mem _ hmem, hP⟩

/-- A successful `to_dict` fold over distinctly named nodes (fresh for the
accumulator) produces keys equal to the node names, in order. -/
lemma toDict_keys_aux (u : Dtype) (nodes : List GpuArrowNodeReader)
    (dc0 dc : List (String × Series))
    (h : nodes.foldlM (toDictBody u) dc0 = .ok dc)
    (hnd : (nodes.map GpuArrowNodeReader.name).Nodup)
    (hfresh : ∀ n ∈ nodes, ∀ p ∈ dc0, p.1 ≠ n.name) :
    dc.map Prod.fst = dc0.map Prod.fst ++ nodes.map GpuArrowNodeReader.name := by
  induction nodes generalizing dc0 with
  | nil =>
    simp only [List.foldlM_nil] at h
    rw [pure_ok_iff] at h
    subst h
    simp
  | cons n ns ih =>
    rw [List.foldlM_cons] at h
    cases hb : toDictBody u dc0 n with
    | error e =>
      rw [hb] at h
      simp [Bind.bind, Except.bind] at h
    | ok dc1 =>
      rw [hb] at h
      have h2 : ns.foldlM (toDictBody u) dc1 = .ok dc := by
        simpa [Bind.bind, Except.bind] using h
      have hinv : ∃ s, nodeSeries u n = .ok s ∧ dc1 = odSet dc0 n.name s := by
        simp only [toDictBody, bind_ok_iff, pure_ok_iff] at hb
        obtain ⟨s, hs, he⟩ := hb
        exact ⟨s, hs, he.symm⟩
      obtain ⟨s, -, rfl⟩ := hinv
      have hfr : ∀ p ∈ dc0, p.1 ≠ n.name := hfresh n (List.mem_cons_self _ _)
      rw [odSet_fresh dc0 n.name s hfr] at h2
      have hcons : (∀ x ∈ ns, ¬ x.name = n.name) ∧
          (ns.map GpuArrowNodeReader.name).Nodup := by simpa using hnd
      obtain ⟨hnotin, hnd'⟩ := hcons
      have hfresh' : ∀ x ∈ ns, ∀ p ∈ dc0 ++ [(n.name, s)], p.1 ≠ x.name := by
        intro x hx p hp
        rcases List.mem_append.mp hp with hp0 | hp1
        · exact hfresh x (List.mem_cons_of_mem _ hx) p hp0
        · have hpe : p = (n.name, s) := by simpa using hp1
          rw [hpe]
          exact fun heq => hnotin x hx heq.symm
      have := ih (dc0 ++ [(n.name, s)]) h2 hnd' hfresh'
      simpa [List.append_assoc] using this

/-- Python list access at a nonnegative in-range index returns the element there. -/
lemma getitem_nat (r : GpuArrowReader) (i : Nat) (hi : i < r.nodes.length) :
    r.getitem i = .ok (r.nodes.get ⟨i, hi⟩) := by
  have h0 : ¬ ((i : Int) < 0) := by omega
  have hc : 0 ≤ (i : Int) ∧ (i : Int) < (r.nodes.length : Int) := by omega
  simp only [GpuArrowReader.getitem, pyIndex, h0, if_false]
  rw [dif_pos hc]
  simp

/-- Inversion of a successful construction: the parser did not fail and the node list
was built from its metadata entries over the data sub-region. -/
lemma construct_ok_inv (g : DevArray) (p : ParserOutput) (r : GpuArrowReader)
    (h : (GpuArrowReader.construct g p).2 = .ok r) :
    p.failed = false ∧ buildNodes (g.sliceFrom p.dataOffset) p.nodes = .ok r.nodes := by
  cases hf : p.failed with
  | true =>
    exfalso
    simp [GpuArrowReader.construct, GpuArrowReader._open, _parse_metdata, hf,
      Except.map, Bind.bind, Except.bind] at h
  | false =>
    refine ⟨rfl, ?_⟩
    simp only [GpuArrowReader.construct, GpuArrowReader._open, _parse_metdata, hf,
      Bool.false_eq_true, if_false] at h
    rw [map_ok_iff] at h
    obtain ⟨ns, hns, hr⟩ := h
    rw [bind_ok_iff] at hns
    obtain ⟨res, hres, hbuild⟩ := hns
    cases hres
    rw [← hr]
    exact hbuild

/-! The claim theorems. -/

/-- C1, counterexample.  The claim says the raw accessors raise `SizeMismatch`
whenever `offset + length` exceeds the region size.  `c1node` has a 4-byte region and
zero-length buffer descriptors at offsets 9 and 10: both windows end past the region,
yet both raw accessors return an (empty) slice instead of raising. -/
theorem claim1_counterexample :
    c1node.gpu_data.bytes.length <
      c1node.desc.data_buffer.offset + c1node.desc.data_buffer.length ∧
    c1node.data_raw = .ok ⟨uint8, 1, []⟩ ∧
    c1node.gpu_data.bytes.length <
      c1node.desc.null_buffer.offset + c1node.desc.null_buffer.length ∧
    c1node.null_raw = .ok ⟨uint8, 1, []⟩ := by
  decide

/-- C1 (corrected): for every buffer descriptor (data or null), when
`offset + length` fits in the region the raw accessor returns the slice at
`[offset, offset + length)` whose byte length equals `descriptor.length` exactly;
when `offset + length` exceeds the region size AND the descriptor's length is nonzero
it raises `ValueError('data size mismatch')`.  (A zero-length descriptor never raises,
even when its offset lies past the end of the region — the slice is empty and empty is
the expected size.) -/
theorem claim1_raw_slice_bounds (r : GpuArrowNodeReader)
    (hg : r.gpu_data.dtype = uint8) :
    (r.desc.data_buffer.offset + r.desc.data_buffer.length ≤ r.gpu_data.bytes.length →
      ∃ a, r.data_raw = .ok a ∧ a.bytes.length = r.desc.data_buffer.length ∧
        a.bytes = (r.gpu_data.bytes.drop r.desc.data_buffer.offset).take
          r.desc.data_buffer.length) ∧
    (r.gpu_data.bytes.length < r.desc.data_buffer.offset + r.desc.data_buffer.length →
      0 < r.desc.data_buffer.length →
      r.data_raw = .error (.valueError "data size mismatch")) ∧
    (r.desc.null_buffer.offset + r.desc.null_buffer.length ≤ r.gpu_data.bytes.length →
      ∃ a, r.null_raw = .ok a ∧ a.bytes.length = r.desc.null_buffer.length ∧
        a.bytes = (r.gpu_data.bytes.drop r.desc.null_buffer.offset).take
          r.desc.null_buffer.length) ∧
    (r.gpu_data.bytes.length < r.desc.null_buffer.offset + r.desc.null_buffer.length →
      0 < r.desc.null_buffer.length →
      r.null_raw = .error (.valueError "data size mismatch")) := by
  have hsz := fun off len => slice_size_eq r.gpu_data hg off len
  refine ⟨fun hle => ?_, fun hgt hpos => ?_, fun hle => ?_, fun hgt hpos => ?_⟩
  · refine ⟨r.gpu_data.slice r.desc.data_buffer.offset
      (r.desc.data_buffer.offset + r.desc.data_buffer.length), ?_, ?_, ?_⟩
    · simp only [GpuArrowNodeReader.data_raw]
      rw [if_neg]
      rw [hsz]
      omega
    · rw [slice_bytes, List.length_take, List.length_drop]
      omega
    · exact slice_bytes ..
  · simp only [GpuArrowNodeReader.data_raw]
    rw [if_pos]
    rw [hsz]
    omega
  · refine ⟨r.gpu_data.slice r.desc.null_buffer.offset
      (r.desc.null_buffer.offset + r.desc.null_buffer.length), ?_, ?_, ?_⟩
    · simp only [GpuArrowNodeReader.null_raw]
      rw [if_neg]
      rw [hsz]
      omega
    · rw [slice_bytes, List.length_take, List.length_drop]
      omega
    · exact slice_bytes ..
  · simp only [GpuArrowNodeReader.null_raw]
    rw [if_pos]
    rw [hsz]
    omega

/-- C1, witness: `w1node`'s data buffer `{offset 2, length 4}` fits in the 8-byte
region and slices to exactly 4 bytes; its null buffer `{offset 6, length 5}` overflows
the region and raises. -/
theorem claim1_witness :
    (∃ a, w1node.data_raw = .ok a ∧ a.bytes.length = w1node.desc.data_buffer.length ∧
      a.bytes = (w1node.gpu_data.bytes.drop w1node.desc.data_buffer.offset).take
        w1node.desc.data_buffer.length) ∧
    w1node.null_raw = .error (.valueError "data size mismatch") := by
  have h := claim1_raw_slice_bounds w1node rfl
  exact ⟨h.1 (by decide), h.2.2.2 (by decide) (by decide)⟩

/-- C2 (confirmed): when the raw data buffer slice succeeds and the data buffer holds
at least `length * dtype.itemsize` bytes, the typed accessor returns, without raising,
a view of exactly `length` elements of the node's dtype whose bytes are exactly the
first `length * itemsize` bytes of the raw buffer, with the raw strides kept when the
dtypes match and packed element-sized strides otherwise. -/
theorem claim2_typed_data_view (r : GpuArrowNodeReader)
    (hg : r.gpu_data.dtype = uint8) (hit : 0 < r.dtype.itemsize) (a : DevArray)
    (hraw : r.data_raw = .ok a)
    (hfit : r.desc.length * r.dtype.itemsize ≤ r.desc.data_buffer.length) :
    ∃ v, r.data = .ok v ∧ v.dtype = r.dtype ∧ v.shape = r.desc.length ∧
      v.bytes = a.bytes.take (r.desc.length * r.dtype.itemsize) ∧
      v.bytes.length = r.desc.length * r.dtype.itemsize ∧
      v.strides = if a.dtype = r.dtype then a.strides else r.dtype.itemsize := by
  obtain ⟨ha, hsize⟩ := data_raw_ok_inv r a hraw
  have hadt : a.dtype = uint8 := by rw [ha, slice_dtype, hg]
  have halen : a.bytes.length = r.desc.data_buffer.length := by
    rw [← size_of_uint8 a hadt, hsize]
  have hdata : r.data = .ok (gpu_view_as (a.slice 0 (r.desc.length * r.dtype.itemsize))
      r.dtype) := by
    simp only [GpuArrowNodeReader.data, hraw]
    rfl
  have hk : r.desc.length * r.dtype.itemsize ≤ a.bytes.length := by omega
  refine ⟨_, hdata, gpu_view_as_dtype .., ?_, ?_, ?_, ?_⟩
  · rw [gpu_view_as_shape a hadt r.dtype hit, min_eq_left hk,
      Nat.mul_div_cancel _ hit]
  · exact gpu_view_as_bytes_aligned a hadt r.dtype hit r.desc.length hk
  · rw [gpu_view_as_bytes_aligned a hadt r.dtype hit r.desc.length hk,
      List.length_take]
    omega
  · rw [gpu_view_as_strides, slice_dtype, slice_strides]

/-- C2, witness: `w2node`'s 9-byte data buffer is truncated to the 8 logical bytes of
its 2 int32 elements. -/
theorem claim2_witness :
    ∃ v, w2node.data = .ok v ∧ v.dtype = w2node.dtype ∧ v.shape = w2node.desc.length ∧
      v.bytes = w2raw.bytes.take (w2node.desc.length * w2node.dtype.itemsize) ∧
      v.bytes.length = w2node.desc.length * w2node.dtype.itemsize ∧
      v.strides = if w2raw.dtype = w2node.dtype then w2raw.strides
        else w2node.dtype.itemsize :=
  claim2_typed_data_view w2node rfl (by decide) w2raw (by decide) (by decide)

/-- C3, counterexample.  The claim says that whenever the raw null slice succeeds the
null view has `(length / 8) * mask_itemsize` bytes.  `c3node` has 8 logical elements
and an empty null buffer: `null_raw` succeeds (the empty slice matches the zero-length
descriptor), but the mask view is empty instead of holding `(8 / 8) * 4 = 4` bytes. -/
theorem claim3_counterexample :
    c3node.null_raw = .ok ⟨uint8, 1, []⟩ ∧
    c3node.null w3mask = .ok ⟨w3mask, 4, []⟩ ∧
    ¬ ((0 : Nat) = (c3node.desc.length / 8) * w3mask.itemsize) := by
  decide

/-- C3 (corrected): when the raw null buffer slice succeeds AND the null buffer holds
at least `(length / 8) * mask_itemsize` bytes, the null accessor returns a view of the
mask dtype whose byte length is exactly `(length / 8) * mask_itemsize`, taken from the
front of the raw null buffer.  (Without the added buffer-size hypothesis the view can
be shorter, as the counterexample shows.) -/
theorem claim3_null_mask_view (r : GpuArrowNodeReader) (u : Dtype)
    (hg : r.gpu_data.dtype = uint8) (hit : 0 < u.itemsize) (a : DevArray)
    (hraw : r.null_raw = .ok a)
    (hfit : (r.desc.length / 8) * u.itemsize ≤ r.desc.null_buffer.length) :
    ∃ v, r.null u = .ok v ∧ v.dtype = u ∧
      v.bytes.length = (r.desc.length / 8) * u.itemsize ∧
      v.bytes = a.bytes.take ((r.desc.length / 8) * u.itemsize) := by
  obtain ⟨ha, hsize⟩ := null_raw_ok_inv r a hraw
  have hadt : a.dtype = uint8 := by rw [ha, slice_dtype, hg]
  have halen : a.bytes.length = r.desc.null_buffer.length := by
    rw [← size_of_uint8 a hadt, hsize]
  have hnull : r.null u = .ok (gpu_view_as
      (a.slice 0 ((r.desc.length / 8) * u.itemsize)) u) := by
    simp only [GpuArrowNodeReader.null, hraw]
    rfl
  have hk : (r.desc.length / 8) * u.itemsize ≤ a.bytes.length := by omega
  refine ⟨_, hnull, gpu_view_as_dtype .., ?_, ?_⟩
  · rw [gpu_view_as_bytes_aligned a hadt u hit _ hk, List.length_take]
    omega
  · exact gpu_view_as_bytes_aligned a hadt u hit _ hk

/-- C3, witness: `w3node` has 17 logical elements, so with a 4-byte mask unit the mask
view holds `(17 / 8) * 4 = 8` bytes, the front of its 9-byte raw null buffer. -/
theorem claim3_witness :
    ∃ v, w3node.null w3mask = .ok v ∧ v.dtype = w3mask ∧
      v.bytes.length = (w3node.desc.length / 8) * w3mask.itemsize ∧
      v.bytes = w3raw.bytes.take ((w3node.desc.length / 8) * w3mask.itemsize) :=
  claim3_null_mask_view w3node w3mask rfl (by decide) w3raw (by decide) (by decide)

/-- C10 (confirmed): when the raw data buffer slice succeeds but the data buffer holds
fewer than `length * dtype.itemsize` bytes, the typed accessor raises no error and
returns a view whose element count is the available byte count divided (flooring) by
the element size — strictly fewer than `length` elements. -/
theorem claim10_silent_shortening (r : GpuArrowNodeReader)
    (hg : r.gpu_data.dtype = uint8) (hit : 0 < r.dtype.itemsize) (a : DevArray)
    (hraw : r.data_raw = .ok a)
    (hshort : r.desc.data_buffer.length < r.desc.length * r.dtype.itemsize) :
    ∃ v, r.data = .ok v ∧
      v.shape = r.desc.data_buffer.length / r.dtype.itemsize ∧
      v.shape < r.desc.length := by
  obtain ⟨ha, hsize⟩ := data_raw_ok_inv r a hraw
  have hadt : a.dtype = uint8 := by rw [ha, slice_dtype, hg]
  have halen : a.bytes.length = r.desc.data_buffer.length := by
    rw [← size_of_uint8 a hadt, hsize]
  have hdata : r.data = .ok (gpu_view_as (a.slice 0 (r.desc.length * r.dtype.itemsize))
      r.dtype) := by
    simp only [GpuArrowNodeReader.data, hraw]
    rfl
  have hshape := gpu_view_as_shape a hadt r.dtype hit (r.desc.length * r.dtype.itemsize)
  rw [min_eq_right (by omega), halen] at hshape
  refine ⟨_, hdata, hshape, ?_⟩
  rw [hshape]
  exact (Nat.div_lt_iff_lt_mul hit).mpr hshort

/-- C10, witness: `w10node`'s data buffer holds 6 bytes for 2 declared int32 elements;
the typed view silently has `6 / 4 = 1` element. -/
theorem claim10_witness :
    ∃ v, w10node.data = .ok v ∧
      v.shape = w10node.desc.data_buffer.length / w10node.dtype.itemsize ∧
      v.shape < w10node.desc.length :=
  claim10_silent_shortening w10node rfl (by decide) w10raw (by decide) (by decide)

/-- C5 (code bug): on a parser run that reports failure, construction raises
`MetadataParsingError("bad magic")` but the parser-close call never happens — the
generator-based context manager has no `try/finally`, so the close after its `yield`
is skipped when the body raises.  On the success path the parser is closed.  The claim
(and the source's own "context to destroy the parser" comment) requires the close on
both paths. -/
theorem claim5_parser_leak_on_failure :
    (_parse_metdata w5region w5fail).2 = .error (.metadataParsingError "bad magic") ∧
    Event.openParser ∈ (_parse_metdata w5region w5fail).1 ∧
    Event.closeParser ∉ (_parse_metdata w5region w5fail).1 ∧
    Event.closeParser ∈ (_parse_metdata w5region w5ok).1 := by
  decide

/-- C6, counterexample.  The claim says every (kind, bitwidth) pair outside the
recognized table — `FloatingPoint` at 32/64 and `Int` at 8/16/32/64 — raises
`UnsupportedType`.  But `("FloatingPoint", 16)` is outside that table and resolution
succeeds, returning numpy's `float16`; and `("Int", 128)`, also outside the table,
raises `AttributeError` (the numpy attribute `int128` does not exist), not the
`NotImplementedError` that the spec calls `UnsupportedType`. -/
theorem claim6_counterexample :
    _schema_to_dtype "FloatingPoint" 16 = .ok ⟨"float16", 2⟩ ∧
    ¬ ((16 : Nat) = 32 ∨ (16 : Nat) = 64) ∧
    _schema_to_dtype "Int" 128 = .error (.attributeError "int128") ∧
    isNotImplementedError (.attributeError "int128") = false := by
  decide

/-- C6 (corrected): resolution raises the `UnsupportedType` error
(`NotImplementedError`) exactly for kinds other than `"FloatingPoint"` and `"Int"`,
never falling back to a default type.  For those two kinds it returns the float or
signed-integer type of the requested width whenever numpy defines a scalar type of
that name — including widths outside the spec's table, such as `float16` — and raises
`AttributeError` (not `UnsupportedType`) for widths numpy does not define.  For pairs
inside the spec's table it returns the IEEE float or signed integer type of the
matching width. -/
theorem claim6_type_resolution (name : String) (bitwidth : Nat) :
    (name ≠ "FloatingPoint" → name ≠ "Int" →
      _schema_to_dtype name bitwidth = .error (.notImplementedError
        ("unsupported type " ++ name ++ " " ++ toString bitwidth ++ "-bits"))) ∧
    (name = "FloatingPoint" → (bitwidth = 32 ∨ bitwidth = 64) →
      _schema_to_dtype name bitwidth =
        .ok ⟨"float" ++ toString bitwidth, bitwidth / 8⟩) ∧
    (name = "Int" →
      (bitwidth = 8 ∨ bitwidth = 16 ∨ bitwidth = 32 ∨ bitwidth = 64) →
      _schema_to_dtype name bitwidth =
        .ok ⟨"int" ++ toString bitwidth, bitwidth / 8⟩) ∧
    (name = "FloatingPoint" → bitwidth ∉ npFloatWidths →
      _schema_to_dtype name bitwidth =
        .error (.attributeError ("float" ++ toString bitwidth))) ∧
    (name = "Int" → bitwidth ∉ npIntWidths →
      _schema_to_dtype name bitwidth =
        .error (.attributeError ("int" ++ toString bitwidth))) := by
  refine ⟨fun h1 h2 => ?_, fun h hw => ?_, fun h hw => ?_, fun h hw => ?_,
    fun h hw => ?_⟩
  · simp [_schema_to_dtype, h1, h2]
  · subst h
    rcases hw with rfl | rfl <;> simp [_schema_to_dtype, npFloatWidths]
  · subst h
    rcases hw with rfl | rfl | rfl | rfl <;> simp [_schema_to_dtype, npIntWidths]
  · subst h
    simp [_schema_to_dtype, hw]
  · subst h
    simp [_schema_to_dtype, hw]

/-- C6, witness: the amended theorem evaluated at one input of each class. -/
theorem claim6_witness :
    _schema_to_dtype "Decimal" 128 =
      .error (.notImplementedError "unsupported type Decimal 128-bits") ∧
    _schema_to_dtype "FloatingPoint" 64 = .ok ⟨"float64", 8⟩ ∧
    _schema_to_dtype "Int" 8 = .ok ⟨"int8", 1⟩ ∧
    _schema_to_dtype "Int" 128 = .error (.attributeError "int128") :=
  ⟨(claim6_type_resolution "Decimal" 128).1 (by decide) (by decide),
   (claim6_type_resolution "FloatingPoint" 64).2.1 rfl (Or.inr rfl),
   (claim6_type_resolution "Int" 8).2.2.1 rfl (Or.inl rfl),
   (claim6_type_resolution "Int" 128).2.2.2.2 rfl (by decide)⟩

/-- C7, counterexample.  The claim says a metadata entry with a missing required field
makes construction fail with `MetadataParsingError`.  Construction from `w7parser`
(whose single entry lacks `name`) does fail — but with `KeyError("name")`, which is
not the `MetadataParsingError` class. -/
theorem claim7_counterexample :
    (GpuArrowReader.construct w7region w7parser).2 = .error (.keyError "name") ∧
    isMetadataParsingError (.keyError "name") = false := by
  decide

/-- C7 (corrected): a metadata entry with a missing required field makes
node-descriptor assembly fail with a `KeyError` naming the missing field — not with
`MetadataParsingError`, which the code raises only when the external parser itself
reports failure — and no reader is ever constructed from a metadata list containing
such an entry. -/
theorem claim7_missing_field (dct : DctNode)
    (hmiss : dct.name = none ∨ dct.length = none ∨ dct.null_count = none ∨
      dct.null_buffer = none ∨ dct.data_buffer = none ∨ dct.dtype = none) :
    (∃ k, readNodeDesc dct = .error (Err.keyError k)) ∧
    ∀ (g : DevArray) (p : ParserOutput), dct ∈ p.nodes →
      ∀ r : GpuArrowReader, (GpuArrowReader.construct g p).2 ≠ .ok r := by
  obtain ⟨k, hk⟩ := readNodeDesc_missing dct hmiss
  refine ⟨⟨k, hk⟩, fun g p hmem r hok => ?_⟩
  obtain ⟨-, hbuild⟩ := construct_ok_inv g p r hok
  obtain ⟨desc, hdesc⟩ := buildNodes_ok_mem _ _ _ hbuild dct hmem
  rw [hk] at hdesc
  cases hdesc

/-- C7, witness: the amended theorem evaluated at `w7bad`, the entry missing its
`name` field. -/
theorem claim7_witness :
    (∃ k, readNodeDesc w7bad = .error (Err.keyError k)) ∧
    ∀ (g : DevArray) (p : ParserOutput), w7bad ∈ p.nodes →
      ∀ r : GpuArrowReader, (GpuArrowReader.construct g p).2 ≠ .ok r :=
  claim7_missing_field w7bad (by decide)

/-- C4 (confirmed): for a reader whose nodes have distinct names and whose accessors
succeed (the null accessor only needs to succeed where it is consulted, i.e. on nodes
with nonzero null count), `to_dict` succeeds and realizes each node's column from
(typed data view, null view, null count) exactly when `null_count > 0`, and from the
typed data view alone — with no null representation — when `null_count = 0`. -/
theorem claim4_null_count_branch (u : Dtype) (r : GpuArrowReader)
    (hd : ∀ n ∈ r.nodes, isOk n.data = true)
    (hm : ∀ n ∈ r.nodes, n.null_count ≠ 0 → isOk (n.null u) = true)
    (hnd : (r.nodes.map GpuArrowNodeReader.name).Nodup) :
    ∃ dc, r.to_dict u = .ok dc ∧ ∀ n ∈ r.nodes, ∃ s, (n.name, s) ∈ dc ∧
      (0 < n.null_count → ∃ d m, n.data = .ok d ∧ n.null u = .ok m ∧
        s = Series.masked d m n.null_count) ∧
      (n.null_count = 0 → ∃ d, n.data = .ok d ∧ s = Series.plain d) := by
  obtain ⟨tail, hfold, -, hprop⟩ := toDictAux u r.nodes [] hd hm hnd (by simp)
  exact ⟨tail, by simpa [GpuArrowReader.to_dict] using hfold, hprop⟩

/-- C4, witness: `w4reader` holds `w4a` (null count 0) and `w4b` (null count 1); its
dict maps "a" to a plain series and "b" to a masked one. -/
theorem claim4_witness :
    ∃ dc, w4reader.to_dict w4mask = .ok dc ∧ ∀ n ∈ w4reader.nodes, ∃ s,
      (n.name, s) ∈ dc ∧
      (0 < n.null_count → ∃ d m, n.data = .ok d ∧ n.null w4mask = .ok m ∧
        s = Series.masked d m n.null_count) ∧
      (n.null_count = 0 → ∃ d, n.data = .ok d ∧ s = Series.plain d) :=
  claim4_null_count_branch w4mask w4reader (by decide) (by decide) (by decide)

/-- C8 (confirmed): for a successfully constructed reader, the column count equals the
number of metadata entries, the column at each ordinal position carries the name of
the metadata entry at the same position — whatever the lexical order of the names —
and (for distinct names) the name-keyed mapping's entries follow the same order. -/
theorem claim8_parse_order (g : DevArray) (p : ParserOutput) (r : GpuArrowReader)
    (hr : (GpuArrowReader.construct g p).2 = .ok r) :
    r.length = p.nodes.length ∧
    (∀ i (hi : i < p.nodes.length), ∃ node nm,
      r.getitem (i : Int) = .ok node ∧
      (p.nodes.get ⟨i, hi⟩).name = some nm ∧ node.name = nm) ∧
    (∀ (u : Dtype) (dc : List (String × Series)),
      (r.nodes.map GpuArrowNodeReader.name).Nodup →
      r.to_dict u = .ok dc →
      dc.map Prod.fst = r.nodes.map GpuArrowNodeReader.name) := by
  obtain ⟨-, hbuild⟩ := construct_ok_inv g p r hr
  have hlen : r.nodes.length = p.nodes.length := buildNodes_ok_length _ _ _ hbuild
  refine ⟨hlen, ?_, ?_⟩
  · intro i hi
    have hi2 : i < r.nodes.length := by omega
    obtain ⟨desc, hdesc, hget⟩ := buildNodes_ok_get _ _ _ hbuild i hi hi2
    refine ⟨r.nodes.get ⟨i, hi2⟩, desc.name, getitem_nat r i hi2,
      readNodeDesc_ok_name _ _ hdesc, ?_⟩
    rw [hget]
    rfl
  · intro u dc hnd hdict
    exact toDict_keys_aux u r.nodes [] dc hdict hnd (by simp)

/-- C8, witness: construction from a parse emitting "b" before "a" yields the columns
in that order, not in lexical order. -/
theorem claim8_witness :
    w8r.length = w8parser.nodes.length ∧
    (∀ i (hi : i < w8parser.nodes.length), ∃ node nm,
      w8r.getitem (i : Int) = .ok node ∧
      (w8parser.nodes.get ⟨i, hi⟩).name = some nm ∧ node.name = nm) ∧
    (∀ (u : Dtype) (dc : List (String × Series)),
      (w8r.nodes.map GpuArrowNodeReader.name).Nodup →
      w8r.to_dict u = .ok dc →
      dc.map Prod.fst = w8r.nodes.map GpuArrowNodeReader.name) :=
  claim8_parse_order w8region w8parser w8r (by decide)

/-- C9, counterexample.  The claim says every integer index outside `[0, count)`
raises the `IndexError` condition.  But Python list indexing accepts negative
indices: on the constructed single-column reader `w9r`, `get(-1)` — outside
`[0, 1)` — returns the column instead of raising. -/
theorem claim9_counterexample :
    (GpuArrowReader.construct w9region w9parser).2 = .ok w9r ∧
    ¬ ((0 : Int) ≤ -1) ∧
    w9r.getitem (-1) = .ok w9node := by
  decide

/-- C9 (corrected): positional access raises `IndexError` exactly for indices outside
`[-count, count)`; indices in `[-count, 0)` select from the end, Python-style, instead
of raising.  In particular `get(count)`, one past the end, always raises. -/
theorem claim9_index_bounds (r : GpuArrowReader) (idx : Int) :
    (r.getitem idx = .error Err.indexError ↔
      (idx < -(r.length : Int) ∨ (r.length : Int) ≤ idx)) ∧
    r.getitem (r.length : Int) = .error Err.indexError := by
  have hmain : ∀ (k : Int), r.getitem k = .error Err.indexError ↔
      (k < -(r.length : Int) ∨ (r.length : Int) ≤ k) := by
    intro k
    simp only [GpuArrowReader.getitem, pyIndex, GpuArrowReader.length]
    by_cases hneg : k < 0
    · simp only [hneg, if_true]
      by_cases hc : 0 ≤ k + (r.nodes.length : Int) ∧
          k + (r.nodes.length : Int) < (r.nodes.length : Int)
      · rw [dif_pos hc]
        exact ⟨(fun h => nomatch h), (fun h => (by omega : False).elim)⟩
      · rw [dif_neg hc]
        exact ⟨fun _ => by omega, fun _ => rfl⟩
    · simp only [hneg, if_false]
      by_cases hc : 0 ≤ k ∧ k < (r.nodes.length : Int)
      · rw [dif_pos hc]
        exact ⟨(fun h => nomatch h), (fun h => (by omega : False).elim)⟩
      · rw [dif_neg hc]
        exact ⟨fun _ => by omega, fun _ => rfl⟩
  exact ⟨hmain idx, (hmain (r.length : Int)).mpr (Or.inr le_rfl)⟩

/-- C9, witness: the amended theorem evaluated on the one-column reader `w9r` at
index 5. -/
theorem claim9_witness :
    (w9r.getitem 5 = .error Err.indexError ↔
      ((5 : Int) < -(w9r.length : Int) ∨ (w9r.length : Int) ≤ 5)) ∧
    w9r.getitem (w9r.length : Int) = .error Err.indexError :=
  claim9_index_bounds w9r 5

end PyGDF
